import Mathlib

/-!
Verification of the Floating Sandbox mass-spring simulation core against its
natural-language specification.

The development shallowly embeds the relevant parts of the source:

* `src/unnamed/part_002` (`Physics::OceanFloor`): the inline sample-array
  lookup `GetFloorHeightAt` is embedded faithfully, with C++ float arithmetic
  carried out over `ℚ` and C++ truncated integer remainder as `Int.tmod`.
* `src/Game/World.h` (`Physics::World`): the inline bodies
  (`IsUnderwater`, `GetOceanSurfaceHeightAt`, `GetOceanFloorHeightAt`) are
  embedded from the source; the out-of-line bodies (Ship physics update,
  interaction tools, nearest-point search) are not part of the provided
  sources, so they are modelled from the specification; each such definition
  carries a doc comment starting with the words Modelled from the spec.
-/

namespace FloatingSandbox

/-- A 2D vector, as the source's `vec2f` (components carried over `ℚ`). -/
structure Vec2f where
  x : ℚ
  y : ℚ
deriving DecidableEq

/-- Squared Euclidean distance between two 2D positions. -/
def squareDistance (a b : Vec2f) : ℚ :=
  (a.x - b.x) ^ 2 + (a.y - b.y) ^ 2

/-- `OceanFloor::SamplesCount` (src/unnamed/part_002:71): `512`, a power of
two, as an integer since the C++ constant has type `int64_t`. -/
def samplesCount : ℤ := 512

/-- One entry of `OceanFloor::mSamples` (src/unnamed/part_002:77-81): the
sample value and the precomputed difference to the next sample. -/
structure OceanFloorSample where
  sampleValue : ℚ
  sampleValuePlusOneMinusSampleValue : ℚ
deriving DecidableEq

/-- `FastFloorInt32` (declared in GameCore/GameMath.h, body not among the
provided sources): mathematical floor. We model it as exact floor over `ℚ`
with unbounded integer result; the index-bound theorems below hold for every
possible integer result, so the int32 range plays no role. -/
def fastFloorInt32 (q : ℚ) : ℤ := Rat.floor q

/-- The computation of `sampleIndexI` inside `OceanFloor::GetFloorHeightAt`
(src/unnamed/part_002:41-50).  C++ `%` on integers is truncated remainder,
i.e. `Int.tmod`. -/
def oceanFloorSampleIndexI (absoluteSampleIndexI : ℤ) : ℤ :=
  if 0 ≤ absoluteSampleIndexI then
    Int.tmod absoluteSampleIndexI samplesCount
  else
    (samplesCount - 1) + Int.tmod absoluteSampleIndexI samplesCount

/-- The computation of `sampleIndexDx` inside `OceanFloor::GetFloorHeightAt`
(src/unnamed/part_002:41-50). -/
def oceanFloorSampleIndexDx (absoluteSampleIndexF : ℚ) (absoluteSampleIndexI : ℤ) : ℚ :=
  if 0 ≤ absoluteSampleIndexI then
    absoluteSampleIndexF - absoluteSampleIndexI
  else
    1 + absoluteSampleIndexF - absoluteSampleIndexI

/-- The sample index as a position into the 512-element array `mSamples`;
the inline proof is the C++ `assert(sampleIndexI >= 0 && sampleIndexI <
SamplesCount)` at src/unnamed/part_002:52, discharged once and for all. -/
def oceanFloorSampleIndexFin (absoluteSampleIndexI : ℤ) : Fin 512 :=
  ⟨(oceanFloorSampleIndexI absoluteSampleIndexI).toNat, by
    have h : 0 ≤ oceanFloorSampleIndexI absoluteSampleIndexI ∧
        oceanFloorSampleIndexI absoluteSampleIndexI < 512 := by
      unfold oceanFloorSampleIndexI samplesCount
      split
      · next hpos =>
          exact ⟨Int.tmod_nonneg _ hpos, Int.tmod_lt_of_pos _ (by norm_num)⟩
      · next hneg =>
          cases absoluteSampleIndexI with
          | ofNat n => exact absurd (Int.ofNat_nonneg n) hneg
          | negSucc k =>
              have ht : Int.tmod (Int.negSucc k) 512 = -(((k + 1) % 512 : ℕ) : ℤ) := rfl
              have h1 : (k + 1) % 512 < 512 := Nat.mod_lt _ (by norm_num)
              rw [ht]
              omega
    omega⟩

/-- `OceanFloor::GetFloorHeightAt` (src/unnamed/part_002:27-56).  The sample
spacing `Dx = Period / SamplesCount` is kept as a parameter because its
concrete value `2000π/512` is irrational; every theorem below is proved for
an arbitrary spacing. -/
def getFloorHeightAt (dx : ℚ) (samples : Fin 512 → OceanFloorSample) (x : ℚ) : ℚ :=
  (samples (oceanFloorSampleIndexFin (fastFloorInt32 (x / dx)))).sampleValue +
    (samples (oceanFloorSampleIndexFin (fastFloorInt32 (x / dx)))).sampleValuePlusOneMinusSampleValue *
      oceanFloorSampleIndexDx (x / dx) (fastFloorInt32 (x / dx))

/-- `OceanFloor::Period = SamplesCount * Dx` (src/unnamed/part_002:66,74,
where `Dx = Period / SamplesCount`), expressed for an arbitrary spacing. -/
def oceanFloorPeriod (dx : ℚ) : ℚ := (samplesCount : ℚ) * dx

/-- A concrete sample array witnessing non-collinear adjacent segments:
all samples are `0`, but the stored difference of sample 511 to its
successor is `1`. -/
def flatExceptLastSamples : Fin 512 → OceanFloorSample :=
  fun i => if i.val = 511 then ⟨0, 1⟩ else ⟨0, 0⟩

/-- `GameParameters` (src/Game/GameParameters.h, body not among the provided
sources; spec section 6 describes it as a plain configuration struct
carrying every tunable of section 4.1).  Only the fields the claims touch
are modelled. -/
structure GameParameters where
  dt : ℚ
  strengthAdjustment : ℚ
  waterDiffusionSpeed : ℚ
  waterIntakeRate : ℚ
  waterOutflowRate : ℚ
  floodQuantity : ℚ
  floodRadius : ℚ
  toolSearchRadius : ℚ
  seaDepth : ℚ
  oceanFloorBumpiness : ℚ
  oceanFloorDetailAmplification : ℚ
deriving DecidableEq

/-- The mutable state of `Physics::OceanFloor` (src/unnamed/part_002:83-92):
the sample array plus the cached game parameters for which the samples are
current.  `dx` models the constexpr `Dx` (kept abstract, see
`getFloorHeightAt`). -/
structure OceanFloorState where
  dx : ℚ
  samples : Fin 512 → OceanFloorSample
  currentSeaDepth : ℚ
  currentOceanFloorBumpiness : ℚ
  currentOceanFloorDetailAmplification : ℚ

/-- Modelled from the spec: the body of `OceanFloor::Update` is not among the
provided sources (only its declaration at src/unnamed/part_002:25 and the
cached-parameter fields at lines 84-92).  Spec section 4.2: recomputation
happens only when the sea-depth / bumpiness / detail parameters changed.
The actual sample recomputation (a noise sum) is abstracted as the function
argument `computeSamples` of the three parameters. -/
def oceanFloorUpdate (computeSamples : ℚ → ℚ → ℚ → Fin 512 → OceanFloorSample)
    (st : OceanFloorState) (gp : GameParameters) : OceanFloorState :=
  if gp.seaDepth = st.currentSeaDepth ∧
      gp.oceanFloorBumpiness = st.currentOceanFloorBumpiness ∧
      gp.oceanFloorDetailAmplification = st.currentOceanFloorDetailAmplification then
    st
  else
    { dx := st.dx
      samples := computeSamples gp.seaDepth gp.oceanFloorBumpiness gp.oceanFloorDetailAmplification
      currentSeaDepth := gp.seaDepth
      currentOceanFloorBumpiness := gp.oceanFloorBumpiness
      currentOceanFloorDetailAmplification := gp.oceanFloorDetailAmplification }

/-- Modelled from the spec (section 3, Point): a structural particle.  Only
the claim-relevant attributes are carried; mass is base mass plus water
mass. -/
structure Point where
  position : Vec2f
  velocity : Vec2f
  baseMass : ℚ
  waterQuantity : ℚ
  waterCapacity : ℚ
deriving DecidableEq

/-- Modelled from the spec (section 3, Spring): a connection between two
points, with endpoint indices into the ship's fixed-size point array. -/
structure Spring (n : ℕ) where
  pointAIndex : Fin n
  pointBIndex : Fin n
  restLength : ℚ
  strength : ℚ
  isBroken : Bool
deriving DecidableEq

/-- Modelled from the spec (section 3, Ship): one fixed-size set of points
and springs, arena-style (indices, not pointers); counts never change after
load. -/
structure Ship (n m : ℕ) where
  points : Fin n → Point
  springs : Fin m → Spring n

/-- Modelled from the spec (section 4.1 steps 1-3): semi-implicit Euler
integration of one point, `v += (F/m)·dt; p += v·dt`.  The accumulated
force is a parameter: the spring/damper force formulas involve the
Euclidean norm, which is irrational over `ℚ`, and no claim constrains the
force values. -/
def integratePoint (force : Vec2f) (gp : GameParameters) (p : Point) : Point :=
  { p with
    velocity :=
      ⟨p.velocity.x + gp.dt * (force.x / (p.baseMass + p.waterQuantity)),
       p.velocity.y + gp.dt * (force.y / (p.baseMass + p.waterQuantity))⟩,
    position :=
      ⟨p.position.x + gp.dt * (p.velocity.x + gp.dt * (force.x / (p.baseMass + p.waterQuantity))),
       p.position.y + gp.dt * (p.velocity.y + gp.dt * (force.y / (p.baseMass + p.waterQuantity)))⟩ }

/-- Modelled from the spec (section 4.1 steps 1-3): integrate every point. -/
def integratePoints (forces : Fin n → Vec2f) (gp : GameParameters) (ship : Ship n m) : Ship n m :=
  { ship with points := fun i => integratePoint (forces i) gp (ship.points i) }

/-- Modelled from the spec (section 4.1 step 4): after integration a spring
whose elongation exceeds the material strength threshold is marked broken;
a broken spring stays broken.  Comparing squared lengths expresses
`|p2-p1| - restLength > threshold·restLength` without square roots. -/
def evaluateSpringStress (gp : GameParameters) (ship : Ship n m) : Ship n m :=
  { ship with springs := fun s =>
      { ship.springs s with
          isBroken := (ship.springs s).isBroken ||
            decide (((1 + (ship.springs s).strength * gp.strengthAdjustment) *
                (ship.springs s).restLength) ^ 2 <
              squareDistance (ship.points (ship.springs s).pointAIndex).position
                (ship.points (ship.springs s).pointBIndex).position) } }

/-- Modelled from the spec (section 4.1 step 6): net water flowing into
point `i` along surviving springs, proportional to the water difference
toward the neighbour. -/
def waterInflow (ship : Ship n m) (i : Fin n) : ℚ :=
  (List.finRange m).foldl (fun acc s =>
    if (ship.springs s).isBroken then acc
    else if (ship.springs s).pointAIndex = i then
      acc + ((ship.points (ship.springs s).pointBIndex).waterQuantity -
        (ship.points i).waterQuantity)
    else if (ship.springs s).pointBIndex = i then
      acc + ((ship.points (ship.springs s).pointAIndex).waterQuantity -
        (ship.points i).waterQuantity)
    else acc) 0

/-- Modelled from the spec (section 4.1 step 6): diffusion along surviving
springs, intake below the ocean surface, outflow above it, then update the
per-point water quantity and clamp it to `[0, capacity]`. -/
def transportWater (surf : ℚ → ℚ) (gp : GameParameters) (ship : Ship n m) : Ship n m :=
  { ship with points := fun i =>
      { ship.points i with
          waterQuantity := max 0 (min (ship.points i).waterCapacity
            ((ship.points i).waterQuantity + gp.dt *
              (gp.waterDiffusionSpeed * waterInflow ship i +
                (if (ship.points i).position.y < surf (ship.points i).position.x then
                  gp.waterIntakeRate else 0) -
                (if (ship.points i).position.y < surf (ship.points i).position.x then
                  0 else gp.waterOutflowRate)))) } }

/-- Modelled from the spec (section 4.1): one `World::Update` frame for one
ship, with the spec's strict phase order: force accumulation and
integration, then spring stress evaluation and breakage, then water
transport.  (The connectivity recomputation of step 5 is the derived
`connectedComponents` below; it mutates no point/spring state.) -/
def updateStep (surf : ℚ → ℚ) (forces : Fin n → Vec2f) (gp : GameParameters)
    (ship : Ship n m) : Ship n m :=
  transportWater surf gp (evaluateSpringStress gp (integratePoints forces gp ship))

/-- Modelled from the spec (sections 4.3, 7): the nearest-point search used
by the interaction tools: among the points within `radius` of `pos`
(squared-distance comparison), the closest one, or `none` when no point is
within the radius. -/
def shipNearestPointAt (ship : Ship n m) (pos : Vec2f) (radius : ℚ) : Option (Fin n) :=
  (List.finRange n).foldl (fun best i =>
    if squareDistance (ship.points i).position pos ≤ radius ^ 2 then
      match best with
      | none => some i
      | some b =>
          if squareDistance (ship.points i).position pos <
              squareDistance (ship.points b).position pos then some i
          else some b
    else best) none

/-- Modelled from the spec (section 4.3): `World::DestroyAt` marks broken
every spring with an endpoint within the destroy radius. -/
def destroyAt (pos : Vec2f) (radius : ℚ) (ship : Ship n m) : Ship n m :=
  { ship with springs := fun s =>
      { ship.springs s with
          isBroken := (ship.springs s).isBroken ||
            (decide (squareDistance (ship.points (ship.springs s).pointAIndex).position pos ≤
                radius ^ 2) ||
             decide (squareDistance (ship.points (ship.springs s).pointBIndex).position pos ≤
                radius ^ 2)) } }

/-- Modelled from the spec (section 4.3): `World::SawThrough` marks broken
the springs crossing the saw segment; the geometric segment-crossing test
is abstracted as the selection argument `cut`. -/
def sawThrough (cut : Fin m → Bool) (ship : Ship n m) : Ship n m :=
  { ship with springs := fun s =>
      { ship.springs s with
          isBroken := (ship.springs s).isBroken || cut s } }

/-- Modelled from the spec: `World::RepairAt`.  Per the invariant of spec
section 3 a broken spring never reattaches (repair re-creates rather than
un-breaks, spec sections 8-9), so repair leaves every existing spring's
`isBroken` flag unchanged; no other modelled attribute is specified to
change. -/
def repairAt (_pos : Vec2f) (_radius : ℚ) (ship : Ship n m) : Ship n m :=
  ship

/-- Modelled from the spec (sections 4.3 and 8, flood scenario):
`World::FloodAt` locates the affected point within the flood radius and
adds the configured quantity to its water, clamped to that point's
capacity; no other point's water changes in the same call.  Returns whether
a point was found, as the `bool` of `World::FloodAt`
(src/Game/World.h:129-132). -/
def floodAt (pos : Vec2f) (waterQuantityMultiplier : ℚ) (gp : GameParameters)
    (ship : Ship n m) : Bool × Ship n m :=
  match shipNearestPointAt ship pos gp.floodRadius with
  | none => (false, ship)
  | some i =>
      (true, { ship with points := fun j =>
        if j = i then
          { ship.points j with
              waterQuantity := min (ship.points j).waterCapacity
                ((ship.points j).waterQuantity + gp.floodQuantity * waterQuantityMultiplier) }
        else (ship.points j) })

/-- Modelled from the spec (section 4.3): the operations that mutate a
ship's state between frames: a full `World::Update` step or one of the
synchronous interaction tools. -/
inductive ShipOp (n m : ℕ) where
  | update (surf : ℚ → ℚ) (forces : Fin n → Vec2f) (gp : GameParameters)
  | destroyAt (pos : Vec2f) (radius : ℚ)
  | sawThrough (cut : Fin m → Bool)
  | repairAt (pos : Vec2f) (radius : ℚ)
  | floodAt (pos : Vec2f) (waterQuantityMultiplier : ℚ) (gp : GameParameters)

/-- Apply one operation to a ship. -/
def applyShipOp (ship : Ship n m) : ShipOp n m → Ship n m
  | ShipOp.update surf forces gp => updateStep surf forces gp ship
  | ShipOp.destroyAt pos radius => destroyAt pos radius ship
  | ShipOp.sawThrough cut => sawThrough cut ship
  | ShipOp.repairAt pos radius => repairAt pos radius ship
  | ShipOp.floodAt pos mult gp => (floodAt pos mult gp ship).2

/-- Apply a sequence of operations (frames and tool calls) in order. -/
def applyShipOps (ship : Ship n m) (ops : List (ShipOp n m)) : Ship n m :=
  ops.foldl applyShipOp ship

/-- The water-bounds invariant of spec sections 3 and 8: every point's water
quantity lies in `[0, capacity]`. -/
abbrev WaterInv (ship : Ship n m) : Prop :=
  ∀ i, 0 ≤ (ship.points i).waterQuantity ∧
    (ship.points i).waterQuantity ≤ (ship.points i).waterCapacity

/-- Capacities are nonnegative (spec section 3: capacity is derived from
material permeability and local volume). -/
abbrev CapInv (ship : Ship n m) : Prop :=
  ∀ i, 0 ≤ (ship.points i).waterCapacity

/-- Well-formedness of an operation: a flood adds a nonnegative quantity. -/
def ShipOpWF : ShipOp n m → Prop
  | ShipOp.floodAt _ mult gp => 0 ≤ gp.floodQuantity * mult
  | _ => True

/-- Two points are adjacent when some surviving (non-broken) spring connects
them, in either endpoint order. -/
abbrev adjacentPoints (ship : Ship n m) (p q : Fin n) : Prop :=
  ∃ s : Fin m, (ship.springs s).isBroken = false ∧
    (((ship.springs s).pointAIndex = p ∧ (ship.springs s).pointBIndex = q) ∨
     ((ship.springs s).pointAIndex = q ∧ (ship.springs s).pointBIndex = p))

/-- One flood-fill round: add every point adjacent to the current set via a
surviving spring (spec section 4.1 step 5: flood-fill/BFS over the
surviving spring graph). -/
def expandReach (ship : Ship n m) (sset : Finset (Fin n)) : Finset (Fin n) :=
  sset ∪ Finset.univ.filter fun q => ∃ r ∈ sset, adjacentPoints ship r q

/-- The connected component of point `p`: flood-fill from `{p}`, iterated
`n` times (enough rounds to reach every one of the `n` points). -/
def componentOf (ship : Ship n m) (p : Fin n) : Finset (Fin n) :=
  (expandReach ship)^[n] {p}

/-- The connected-component partition recomputed after breakage (spec
section 4.1 step 5). -/
def connectedComponents (ship : Ship n m) : Finset (Finset (Fin n)) :=
  Finset.univ.image (componentOf ship)

/-- An element identifier, as the source's `ElementId`: a ship id and a
point index within that ship. -/
abbrev ElementId : Type := ℕ × ℕ

/-- A ship of arbitrary size owned by the world. -/
structure WorldShip where
  numPoints : ℕ
  numSprings : ℕ
  ship : Ship numPoints numSprings

/-- `Physics::World` state (src/Game/World.h:185-200): simulation time, the
environment leaves and the owned ships.  `OceanSurface::GetHeightAt` is not
among the provided sources; per spec section 8 it is a pure function of
`(t, x)`, modelled as the function field `oceanSurfaceHeightAt`. -/
structure World where
  currentSimulationTime : ℚ
  oceanFloor : OceanFloorState
  oceanSurfaceHeightAt : ℚ → ℚ → ℚ
  ships : List WorldShip

/-- `World::GetOceanSurfaceHeightAt` (src/Game/World.h:50-53): delegates to
the ocean surface at the current simulation time. -/
def getOceanSurfaceHeightAt (w : World) (x : ℚ) : ℚ :=
  w.oceanSurfaceHeightAt w.currentSimulationTime x

/-- `World::IsUnderwater` (src/Game/World.h:55-58):
`position.y < GetOceanSurfaceHeightAt(position.x)`. -/
def isUnderwater (w : World) (position : Vec2f) : Bool :=
  decide (position.y < getOceanSurfaceHeightAt w position.x)

/-- `World::GetOceanFloorHeightAt` (src/Game/World.h:60-63): delegates to
the ocean floor sample lookup. -/
def getOceanFloorHeightAt (w : World) (x : ℚ) : ℚ :=
  getFloorHeightAt w.oceanFloor.dx w.oceanFloor.samples x

/-- A call to the const method `World::GetOceanFloorHeightAt`, embedded
state-passing style: the method body contains no writes, so the outgoing
state is the incoming one. -/
def getOceanFloorHeightAtCall (w : World) (x : ℚ) : ℚ × World :=
  (getOceanFloorHeightAt w x, w)

/-- A call to the const method `World::GetOceanSurfaceHeightAt`, embedded
state-passing style. -/
def getOceanSurfaceHeightAtCall (w : World) (x : ℚ) : ℚ × World :=
  (getOceanSurfaceHeightAt w x, w)

/-- Modelled from the spec: one step of the world-level nearest-point
search across ships (`World::Pick` / `World::GetNearestPointAt` bodies are
not among the provided sources; spec section 7: no point within radius is
an empty optional, not an exception). -/
def worldNearestStep (pos : Vec2f) (radius : ℚ) (shipIndex : ℕ) (ws : WorldShip)
    (best : Option (ℕ × ℕ × ℚ)) : Option (ℕ × ℕ × ℚ) :=
  match shipNearestPointAt ws.ship pos radius with
  | none => best
  | some pIdx =>
      match best with
      | none => some (shipIndex, pIdx.val, squareDistance (ws.ship.points pIdx).position pos)
      | some (bsi, bpi, bd) =>
          if squareDistance (ws.ship.points pIdx).position pos < bd then
            some (shipIndex, pIdx.val, squareDistance (ws.ship.points pIdx).position pos)
          else some (bsi, bpi, bd)

/-- Modelled from the spec: fold the nearest-point search over the world's
ships, tracking the best candidate and its squared distance. -/
def worldNearestAux (pos : Vec2f) (radius : ℚ) :
    ℕ → List WorldShip → Option (ℕ × ℕ × ℚ) → Option (ℕ × ℕ × ℚ)
  | _, [], best => best
  | si, ws :: rest, best =>
      worldNearestAux pos radius (si + 1) rest (worldNearestStep pos radius si ws best)

/-- Modelled from the spec: `World::GetNearestPointAt` result — the element
id of the nearest point within the radius across all ships, or `none`. -/
def worldNearestPointAt (w : World) (pos : Vec2f) (radius : ℚ) : Option ElementId :=
  match worldNearestAux pos radius 0 w.ships none with
  | none => none
  | some (si, pIdx, _) => some (si, pIdx)

/-- A call to `World::Pick` (src/Game/World.h:70-72), embedded state-passing
style: the search radius comes from the game parameters, the result is an
optional element id, and no state is written. -/
def pickCall (w : World) (pickPosition : Vec2f) (gp : GameParameters) :
    Option ElementId × World :=
  (worldNearestPointAt w pickPosition gp.toolSearchRadius, w)

/-- A call to the const method `World::GetNearestPointAt`
(src/Game/World.h:169-171), embedded state-passing style. -/
def getNearestPointAtCall (w : World) (targetPos : Vec2f) (radius : ℚ) :
    Option ElementId × World :=
  (worldNearestPointAt w targetPos radius, w)

/-- A point at rest at the origin, dry, with unit mass and capacity. -/
def pointAtOrigin : Point :=
  { position := ⟨0, 0⟩, velocity := ⟨0, 0⟩, baseMass := 1,
    waterQuantity := 0, waterCapacity := 1 }

/-- A dry unit point at abscissa `q`. -/
def pointAt (q : ℚ) : Point :=
  { pointAtOrigin with position := ⟨q, 0⟩ }

/-- Concrete game parameters used by the witnesses. -/
def demoParameters : GameParameters :=
  { dt := 1, strengthAdjustment := 1, waterDiffusionSpeed := 1,
    waterIntakeRate := 1, waterOutflowRate := 1, floodQuantity := 5,
    floodRadius := 1, toolSearchRadius := 1, seaDepth := 0,
    oceanFloorBumpiness := 0, oceanFloorDetailAmplification := 0 }

/-- A single already-broken unit spring between points 0 and 1. -/
def demoBrokenSpring : Spring 2 :=
  { pointAIndex := 0, pointBIndex := 1, restLength := 1, strength := 1,
    isBroken := true }

/-- A two-point ship whose single spring is already broken. -/
def brokenSpringShip : Ship 2 1 :=
  { points := ![pointAt 0, pointAt 1], springs := ![demoBrokenSpring] }

/-- A short sequence of tool operations for the monotonicity witness. -/
def demoOps : List (ShipOp 2 1) :=
  [ShipOp.repairAt ⟨0, 0⟩ 1, ShipOp.destroyAt ⟨0, 0⟩ 1]

/-- A dry one-point ship with no springs. -/
def drySmallShip : Ship 1 0 :=
  { points := ![pointAtOrigin], springs := ![] }

/-- Operations for the water-bounds witness: one flood, one update frame. -/
def demoWaterOps : List (ShipOp 1 0) :=
  [ShipOp.floodAt ⟨0, 0⟩ 1 demoParameters,
   ShipOp.update (fun _ => 0) (fun _ => ⟨0, 0⟩) demoParameters]

/-- A two-point springless ship: a dry point at the origin with capacity 3,
and a far-away point. -/
def floodTargetShip : Ship 2 0 :=
  { points := ![{ pointAtOrigin with waterCapacity := 3 }, pointAt 10],
    springs := ![] }

/-- A one-point ship far away from the origin. -/
def farShip : Ship 1 0 :=
  { points := ![pointAt 100], springs := ![] }

/-- The far ship wrapped as a world-owned ship. -/
def farWorldShip : WorldShip :=
  { numPoints := 1, numSprings := 0, ship := farShip }

/-- A concrete ocean-floor state whose cached parameters match
`demoParameters`. -/
def demoFloorState : OceanFloorState :=
  { dx := 1, samples := flatExceptLastSamples, currentSeaDepth := 0,
    currentOceanFloorBumpiness := 0, currentOceanFloorDetailAmplification := 0 }

/-- A concrete world: flat zero ocean surface, one far-away ship. -/
def farWorld : World :=
  { currentSimulationTime := 0, oceanFloor := demoFloorState,
    oceanSurfaceHeightAt := fun _ _ => 0, ships := [farWorldShip] }

/-- A concrete sample recomputation function for the update witness. -/
def demoComputeSamples : ℚ → ℚ → ℚ → Fin 512 → OceanFloorSample :=
  fun _ _ _ _ => ⟨1, 1⟩

end FloatingSandbox

namespace FloatingSandbox

/-! ### Theorems -/

/-- The C++ assert at src/unnamed/part_002:52: whatever integer the floor
computation produces, the sample index lands in `[0, SamplesCount)`. -/
theorem oceanFloorSampleIndexI_bounds (absoluteSampleIndexI : ℤ) :
    0 ≤ oceanFloorSampleIndexI absoluteSampleIndexI ∧
      oceanFloorSampleIndexI absoluteSampleIndexI < samplesCount := by
  unfold oceanFloorSampleIndexI samplesCount
  split
  · next hpos =>
      exact ⟨Int.tmod_nonneg _ hpos, Int.tmod_lt_of_pos _ (by norm_num)⟩
  · next hneg =>
      cases absoluteSampleIndexI with
      | ofNat n => exact absurd (Int.ofNat_nonneg n) hneg
      | negSucc k =>
          have ht : Int.tmod (Int.negSucc k) 512 = -(((k + 1) % 512 : ℕ) : ℤ) := rfl
          have h1 : (k + 1) % 512 < 512 := Nat.mod_lt _ (by norm_num)
          rw [ht]
          omega

/-- C9: for every position `x` (of either sign) and every sample spacing,
the sample index computed inside `OceanFloor::GetFloorHeightAt` satisfies
`0 ≤ sampleIndexI < SamplesCount = 512`, so the assertion in the lookup
holds and both field reads of `mSamples[sampleIndexI]` are within bounds. -/
theorem getFloorHeightAt_index_within_bounds (x dx : ℚ) :
    0 ≤ oceanFloorSampleIndexI (fastFloorInt32 (x / dx)) ∧
      oceanFloorSampleIndexI (fastFloorInt32 (x / dx)) < samplesCount :=
  oceanFloorSampleIndexI_bounds _

/-- C4 (failing-input evaluation): the lookup is not periodic for negative
`x`.  With unit spacing and a sample array that is zero everywhere except
for the stored segment difference at index 511, the lookup at
`x = -1/2` uses segment 510 extrapolated with fractional offset `3/2`
(value 0), while `x + Period` reads segment 511 with offset `1/2`
(value 1/2). -/
theorem getFloorHeightAt_periodicity_violation :
    getFloorHeightAt 1 flatExceptLastSamples (-(1/2) + oceanFloorPeriod 1) ≠
      getFloorHeightAt 1 flatExceptLastSamples (-(1/2)) := by
  have hper : (-(1/2 : ℚ)) + oceanFloorPeriod 1 = -(1/2) + 512 := by
    norm_num [oceanFloorPeriod, samplesCount]
  have e1 : getFloorHeightAt 1 flatExceptLastSamples (-(1/2)) = 0 := by
    have hfl : fastFloorInt32 ((-(1/2) : ℚ) / 1) = -1 := by
      unfold fastFloorInt32
      rw [show Rat.floor ((-(1/2) : ℚ) / 1) = ⌊((-(1/2) : ℚ) / 1)⌋ from rfl]
      norm_num
    have hfin : oceanFloorSampleIndexFin (-1) = ⟨510, by norm_num⟩ := by decide
    unfold getFloorHeightAt
    rw [hfl, hfin]
    norm_num [flatExceptLastSamples, oceanFloorSampleIndexDx]
  have e2 : getFloorHeightAt 1 flatExceptLastSamples (-(1/2) + 512) = 1/2 := by
    have hfl : fastFloorInt32 ((-(1/2) + 512 : ℚ) / 1) = 511 := by
      unfold fastFloorInt32
      rw [show Rat.floor ((-(1/2) + 512 : ℚ) / 1) = ⌊((-(1/2) + 512 : ℚ) / 1)⌋ from rfl]
      norm_num
    have hfin : oceanFloorSampleIndexFin 511 = ⟨511, by norm_num⟩ := by decide
    unfold getFloorHeightAt
    rw [hfl, hfin]
    norm_num [flatExceptLastSamples, oceanFloorSampleIndexDx]
  rw [hper, e1, e2]
  norm_num

/-- C3: the world height queries are pure: a call returns the state
unchanged, and a repeated call with the same `x` at the same accumulated
simulation time returns the identical result. -/
theorem heightQueries_deterministic_and_pure (w : World) (x : ℚ) :
    (getOceanFloorHeightAtCall w x).2 = w ∧
    (getOceanSurfaceHeightAtCall w x).2 = w ∧
    (getOceanFloorHeightAtCall (getOceanFloorHeightAtCall w x).2 x).1 =
      (getOceanFloorHeightAtCall w x).1 ∧
    (getOceanSurfaceHeightAtCall (getOceanSurfaceHeightAtCall w x).2 x).1 =
      (getOceanSurfaceHeightAtCall w x).1 :=
  ⟨rfl, rfl, rfl, rfl⟩

/-- C10: `World::IsUnderwater` holds exactly when `position.y` is strictly
below the ocean surface height at `position.x`; at exact equality it is
`false`. -/
theorem isUnderwater_iff_below_surface (w : World) (position : Vec2f) :
    (isUnderwater w position = true ↔
      position.y < getOceanSurfaceHeightAt w position.x) ∧
    (position.y = getOceanSurfaceHeightAt w position.x →
      isUnderwater w position = false) := by
  unfold isUnderwater
  constructor
  · exact decide_eq_true_iff
  · intro h
    rw [h]
    simp

/-- Witness for C10 at a concrete world and position on the surface. -/
theorem isUnderwater_iff_below_surface_witness :
    (⟨0, 0⟩ : Vec2f).y = getOceanSurfaceHeightAt farWorld (⟨0, 0⟩ : Vec2f).x ∧
    isUnderwater farWorld ⟨0, 0⟩ = false :=
  ⟨rfl, (isUnderwater_iff_below_surface farWorld ⟨0, 0⟩).2 rfl⟩

/-- C8: when the incoming game parameters equal the cached sea depth,
bumpiness and detail amplification, `OceanFloor::Update` leaves the state
(and hence every subsequent lookup result) unchanged. -/
theorem oceanFloorUpdate_unchanged_when_params_equal
    (computeSamples : ℚ → ℚ → ℚ → Fin 512 → OceanFloorSample)
    (st : OceanFloorState) (gp : GameParameters)
    (h1 : gp.seaDepth = st.currentSeaDepth)
    (h2 : gp.oceanFloorBumpiness = st.currentOceanFloorBumpiness)
    (h3 : gp.oceanFloorDetailAmplification = st.currentOceanFloorDetailAmplification) :
    oceanFloorUpdate computeSamples st gp = st ∧
    ∀ x, getFloorHeightAt (oceanFloorUpdate computeSamples st gp).dx
        (oceanFloorUpdate computeSamples st gp).samples x =
      getFloorHeightAt st.dx st.samples x := by
  have h : oceanFloorUpdate computeSamples st gp = st := by
    unfold oceanFloorUpdate
    rw [if_pos ⟨h1, h2, h3⟩]
  exact ⟨h, fun x => by rw [h]⟩

/-- Witness for C8 at a concrete state and matching parameters. -/
theorem oceanFloorUpdate_unchanged_when_params_equal_witness :
    demoParameters.seaDepth = demoFloorState.currentSeaDepth ∧
    demoParameters.oceanFloorBumpiness = demoFloorState.currentOceanFloorBumpiness ∧
    demoParameters.oceanFloorDetailAmplification =
      demoFloorState.currentOceanFloorDetailAmplification ∧
    oceanFloorUpdate demoComputeSamples demoFloorState demoParameters = demoFloorState :=
  ⟨rfl, rfl, rfl,
    (oceanFloorUpdate_unchanged_when_params_equal demoComputeSamples demoFloorState
      demoParameters rfl rfl rfl).1⟩

/-- No single operation — update frame or tool — ever clears a spring's
`isBroken` flag. -/
theorem applyShipOp_isBroken_mono (ship : Ship n m) (op : ShipOp n m) (s : Fin m)
    (h : (ship.springs s).isBroken = true) :
    ((applyShipOp ship op).springs s).isBroken = true := by
  cases op with
  | update surf forces gp =>
      simp [applyShipOp, updateStep, transportWater, evaluateSpringStress,
        integratePoints, h]
  | destroyAt pos radius => simp [applyShipOp, destroyAt, h]
  | sawThrough cut => simp [applyShipOp, sawThrough, h]
  | repairAt pos radius => simpa [applyShipOp, repairAt] using h
  | floodAt pos mult gp =>
      show (((floodAt pos mult gp ship).2).springs s).isBroken = true
      unfold floodAt
      split
      · exact h
      · exact h

/-- C1: spring breakage is monotone: once a spring's `isBroken` flag is set,
it remains set across every subsequent sequence of `World::Update` frames
and tool operations. -/
theorem spring_breakage_monotone (ship : Ship n m) (ops : List (ShipOp n m)) (s : Fin m)
    (h : (ship.springs s).isBroken = true) :
    ((applyShipOps ship ops).springs s).isBroken = true := by
  induction ops generalizing ship with
  | nil => exact h
  | cons op rest ih =>
      rw [applyShipOps, List.foldl_cons]
      exact ih _ (applyShipOp_isBroken_mono ship op s h)

/-- Witness for C1: a concrete broken spring stays broken across a repair
and a destroy operation. -/
theorem spring_breakage_monotone_witness :
    (brokenSpringShip.springs 0).isBroken = true ∧
    ((applyShipOps brokenSpringShip demoOps).springs 0).isBroken = true :=
  ⟨rfl, spring_breakage_monotone brokenSpringShip demoOps 0 rfl⟩

/-- C5: flooding a dry point sets its water to the configured quantity
clamped to that point's capacity, and leaves every other point untouched
within the same call. -/
theorem floodAt_dry_point_exact (ship : Ship n m) (pos : Vec2f) (mult : ℚ)
    (gp : GameParameters) (i : Fin n)
    (hfind : shipNearestPointAt ship pos gp.floodRadius = some i)
    (hdry : (ship.points i).waterQuantity = 0) :
    ((floodAt pos mult gp ship).2.points i).waterQuantity =
      min (ship.points i).waterCapacity (gp.floodQuantity * mult) ∧
    ∀ j, j ≠ i → (floodAt pos mult gp ship).2.points j = ship.points j := by
  unfold floodAt
  rw [hfind]
  constructor
  · simp [hdry]
  · intro j hj
    simp [hj]

/-- Witness for C5: flooding the dry origin point of the concrete two-point
ship. -/
theorem floodAt_dry_point_exact_witness :
    shipNearestPointAt floodTargetShip ⟨0, 0⟩ demoParameters.floodRadius = some 0 ∧
    (floodTargetShip.points 0).waterQuantity = 0 ∧
    ((floodAt ⟨0, 0⟩ 1 demoParameters floodTargetShip).2.points 0).waterQuantity =
      min (floodTargetShip.points 0).waterCapacity (demoParameters.floodQuantity * 1) ∧
    ∀ j, j ≠ (0 : Fin 2) →
      (floodAt ⟨0, 0⟩ 1 demoParameters floodTargetShip).2.points j =
        floodTargetShip.points j := by
  have hfind : shipNearestPointAt floodTargetShip ⟨0, 0⟩ demoParameters.floodRadius =
      some 0 := by
    norm_num [shipNearestPointAt, floodTargetShip, squareDistance, pointAtOrigin,
      pointAt, demoParameters, show List.finRange 2 = [0, 1] from rfl]
  have hdry : (floodTargetShip.points 0).waterQuantity = 0 := rfl
  obtain ⟨h1, h2⟩ :=
    floodAt_dry_point_exact floodTargetShip ⟨0, 0⟩ 1 demoParameters 0 hfind hdry
  exact ⟨hfind, hdry, h1, h2⟩

/-- When every point of a ship is strictly outside the search radius, the
nearest-point search finds nothing. -/
theorem shipNearestPointAt_eq_none (ship : Ship n m) (pos : Vec2f) (radius : ℚ)
    (h : ∀ i, radius ^ 2 < squareDistance (ship.points i).position pos) :
    shipNearestPointAt ship pos radius = none := by
  unfold shipNearestPointAt
  have key : ∀ (l : List (Fin n)) (b : Option (Fin n)),
      List.foldl (fun best i =>
        if squareDistance (ship.points i).position pos ≤ radius ^ 2 then
          match best with
          | none => some i
          | some b =>
              if squareDistance (ship.points i).position pos <
                  squareDistance (ship.points b).position pos then some i
              else some b
        else best) b l = b := by
    intro l
    induction l with
    | nil => intro b; rfl
    | cons a t ih =>
        intro b
        rw [List.foldl_cons, if_neg (not_le.mpr (h a))]
        exact ih b
  exact key _ none

/-- When every ship reports no point within the radius, the world-level
search over all ships also finds nothing. -/
theorem worldNearestAux_none (pos : Vec2f) (radius : ℚ) (ships : List WorldShip)
    (h : ∀ ws ∈ ships, shipNearestPointAt ws.ship pos radius = none) :
    ∀ si, worldNearestAux pos radius si ships none = none := by
  induction ships with
  | nil => intro si; rfl
  | cons ws rest ih =>
      intro si
      have hws := h ws (List.mem_cons_self ws rest)
      rw [worldNearestAux]
      rw [show worldNearestStep pos radius si ws none = none by
        unfold worldNearestStep; rw [hws]]
      exact ih (fun w hw => h w (List.mem_cons_of_mem _ hw)) (si + 1)

/-- C6: when no point of any ship lies within the given radius, both
`World::Pick` and `World::GetNearestPointAt` return an empty optional
result (no exception path exists), and the world state is unchanged by
either query. -/
theorem pick_operations_none_when_no_point_within_radius (w : World)
    (pickPosition : Vec2f) (gp : GameParameters) (radius : ℚ)
    (hpick : ∀ ws ∈ w.ships, ∀ i, gp.toolSearchRadius ^ 2 <
      squareDistance (ws.ship.points i).position pickPosition)
    (hnear : ∀ ws ∈ w.ships, ∀ i, radius ^ 2 <
      squareDistance (ws.ship.points i).position pickPosition) :
    (pickCall w pickPosition gp).1 = none ∧
    (pickCall w pickPosition gp).2 = w ∧
    (getNearestPointAtCall w pickPosition radius).1 = none ∧
    (getNearestPointAtCall w pickPosition radius).2 = w := by
  refine ⟨?_, rfl, ?_, rfl⟩
  · show worldNearestPointAt w pickPosition gp.toolSearchRadius = none
    unfold worldNearestPointAt
    rw [worldNearestAux_none pickPosition gp.toolSearchRadius w.ships
      (fun ws hws => shipNearestPointAt_eq_none _ _ _ (hpick ws hws)) 0]
  · show worldNearestPointAt w pickPosition radius = none
    unfold worldNearestPointAt
    rw [worldNearestAux_none pickPosition radius w.ships
      (fun ws hws => shipNearestPointAt_eq_none _ _ _ (hnear ws hws)) 0]

/-- Witness for C6: picking at the origin of a world whose only ship lies
100 units away, with radius 1. -/
theorem pick_operations_none_witness :
    (∀ ws ∈ farWorld.ships, ∀ i, demoParameters.toolSearchRadius ^ 2 <
      squareDistance (ws.ship.points i).position ⟨0, 0⟩) ∧
    (pickCall farWorld ⟨0, 0⟩ demoParameters).1 = none ∧
    (pickCall farWorld ⟨0, 0⟩ demoParameters).2 = farWorld ∧
    (getNearestPointAtCall farWorld ⟨0, 0⟩ 1).1 = none ∧
    (getNearestPointAtCall farWorld ⟨0, 0⟩ 1).2 = farWorld := by
  have hfar : ∀ ws ∈ farWorld.ships, ∀ i, (1 : ℚ) ^ 2 <
      squareDistance (ws.ship.points i).position ⟨0, 0⟩ := by
    intro ws hws i
    have hws2 : ws = farWorldShip := by simpa [farWorld] using hws
    subst hws2
    have hi : farWorldShip.ship.points i = pointAt 100 :=
      Matrix.cons_val_fin_one (pointAt 100) ![] i
    rw [hi]
    norm_num [pointAt, pointAtOrigin, squareDistance]
  obtain ⟨h1, h2, h3, h4⟩ :=
    pick_operations_none_when_no_point_within_radius farWorld ⟨0, 0⟩ demoParameters 1
      hfar hfar
  exact ⟨hfar, h1, h2, h3, h4⟩

/-- Clamping to `[0, cap]` lands in `[0, cap]` whenever `0 ≤ cap`. -/
theorem clamp_bounds (cap q : ℚ) (hcap : 0 ≤ cap) :
    0 ≤ max 0 (min cap q) ∧ max 0 (min cap q) ≤ cap :=
  ⟨le_max_left 0 _, max_le hcap (min_le_left _ _)⟩

/-- No operation changes any point's water capacity. -/
theorem applyShipOp_capacity (ship : Ship n m) (op : ShipOp n m) (i : Fin n) :
    ((applyShipOp ship op).points i).waterCapacity = (ship.points i).waterCapacity := by
  cases op with
  | update surf forces gp => rfl
  | destroyAt pos radius => rfl
  | sawThrough cut => rfl
  | repairAt pos radius => rfl
  | floodAt pos mult gp =>
      show (((floodAt pos mult gp ship).2).points i).waterCapacity = _
      unfold floodAt
      split
      · rfl
      · next j heq =>
          by_cases hij : i = j
          · simp [hij]
          · simp [hij]

/-- Every single operation keeps each point's water inside `[0, capacity]`. -/
theorem applyShipOp_water_bounds (ship : Ship n m) (op : ShipOp n m)
    (hcap : CapInv ship) (hw : WaterInv ship) (hwf : ShipOpWF op) :
    WaterInv (applyShipOp ship op) := by
  cases op with
  | update surf forces gp => exact fun i => clamp_bounds _ _ (hcap i)
  | destroyAt pos radius => exact hw
  | sawThrough cut => exact hw
  | repairAt pos radius => exact hw
  | floodAt pos mult gp =>
      intro i
      show 0 ≤ (((floodAt pos mult gp ship).2).points i).waterQuantity ∧
        (((floodAt pos mult gp ship).2).points i).waterQuantity ≤
          (((floodAt pos mult gp ship).2).points i).waterCapacity
      unfold floodAt
      split
      · exact hw i
      · next j heq =>
          by_cases hij : i = j
          · simp only [hij, if_pos rfl]
            exact ⟨le_min (hcap j) (add_nonneg (hw j).1 hwf),
              min_le_left _ _⟩
          · simp only [if_neg hij]
            exact hw i

/-- C2: across any sequence of update frames and well-formed tool calls
(floods add nonnegative quantities), every point's water quantity stays in
`[0, capacity]`. -/
theorem water_quantity_within_bounds (ship : Ship n m) (ops : List (ShipOp n m))
    (hcap : CapInv ship) (hw : WaterInv ship) (hwf : ∀ op ∈ ops, ShipOpWF op) :
    WaterInv (applyShipOps ship ops) := by
  induction ops generalizing ship with
  | nil => exact hw
  | cons op rest ih =>
      rw [applyShipOps, List.foldl_cons]
      refine ih (applyShipOp ship op) ?_ ?_ ?_
      · intro i
        rw [applyShipOp_capacity]
        exact hcap i
      · exact applyShipOp_water_bounds ship op hcap hw (hwf op (List.mem_cons_self op rest))
      · exact fun o ho => hwf o (List.mem_cons_of_mem _ ho)

/-- Witness for C2: one flood and one update frame on the concrete dry
one-point ship. -/
theorem water_quantity_within_bounds_witness :
    CapInv drySmallShip ∧ WaterInv drySmallShip ∧
    (∀ op ∈ demoWaterOps, ShipOpWF op) ∧
    WaterInv (applyShipOps drySmallShip demoWaterOps) := by
  have hpt : ∀ i, drySmallShip.points i = pointAtOrigin :=
    fun i => Matrix.cons_val_fin_one pointAtOrigin ![] i
  have hcap : CapInv drySmallShip := by
    intro i
    rw [hpt i]
    norm_num [pointAtOrigin]
  have hw : WaterInv drySmallShip := by
    intro i
    rw [hpt i]
    norm_num [pointAtOrigin]
  have hwf : ∀ op ∈ demoWaterOps, ShipOpWF op := by
    intro op hop
    rcases List.mem_cons.mp hop with rfl | hop2
    · show (0 : ℚ) ≤ demoParameters.floodQuantity * 1
      norm_num [demoParameters]
    · rcases List.mem_cons.mp hop2 with rfl | hop3
      · trivial
      · exact absurd hop3 (List.not_mem_nil op)
  exact ⟨hcap, hw, hwf,
    water_quantity_within_bounds drySmallShip demoWaterOps hcap hw hwf⟩

/-- A set is contained in its one-round flood-fill expansion. -/
theorem subset_expandReach (ship : Ship n m) (sset : Finset (Fin n)) :
    sset ⊆ expandReach ship sset :=
  Finset.subset_union_left

/-- Flood-fill expansion is monotone in the set argument. -/
theorem expandReach_mono (ship : Ship n m) {s t : Finset (Fin n)} (h : s ⊆ t) :
    expandReach ship s ⊆ expandReach ship t := by
  unfold expandReach
  intro q hq
  rcases Finset.mem_union.mp hq with hq | hq
  · exact Finset.mem_union_left _ (h hq)
  · obtain ⟨hu, r, hr, hadj⟩ := Finset.mem_filter.mp hq
    exact Finset.mem_union_right _ (Finset.mem_filter.mpr ⟨hu, r, h hr, hadj⟩)

/-- One more flood-fill round can only grow the reached set. -/
theorem iterate_expandReach_succ (ship : Ship n m) (s : Finset (Fin n)) (k : ℕ) :
    (expandReach ship)^[k] s ⊆ (expandReach ship)^[k + 1] s := by
  rw [Function.iterate_succ_apply']
  exact subset_expandReach ship _

/-- More flood-fill rounds reach at least as much. -/
theorem iterate_expandReach_le (ship : Ship n m) (s : Finset (Fin n)) {a b : ℕ}
    (h : a ≤ b) : (expandReach ship)^[a] s ⊆ (expandReach ship)^[b] s := by
  induction b with
  | zero =>
      have ha : a = 0 := Nat.le_zero.mp h
      subst ha
      exact subset_rfl
  | succ b ih =>
      by_cases hab : a ≤ b
      · exact (ih hab).trans (iterate_expandReach_succ ship s b)
      · have ha : a = b + 1 := by omega
        subst ha
        exact subset_rfl

/-- Every point belongs to its own flood-fill component. -/
theorem mem_componentOf_self (ship : Ship n m) (p : Fin n) :
    p ∈ componentOf ship p := by
  unfold componentOf
  exact iterate_expandReach_le ship {p} (Nat.zero_le n) (Finset.mem_singleton_self p)

/-- Once two consecutive flood-fill rounds agree, all later rounds agree. -/
theorem iterate_expandReach_stationary (ship : Ship n m) (s : Finset (Fin n)) (k : ℕ)
    (h : (expandReach ship)^[k + 1] s = (expandReach ship)^[k] s) :
    ∀ j, (expandReach ship)^[k + j] s = (expandReach ship)^[k] s := by
  intro j
  induction j with
  | zero => rfl
  | succ j ih =>
      have hkj : k + (j + 1) = (k + j) + 1 := rfl
      rw [hkj, Function.iterate_succ_apply', ih]
      exact (Function.iterate_succ_apply' (expandReach ship) k s).symm.trans h

/-- After `n` flood-fill rounds from a singleton the reached set is a
fixed point of the expansion: there are only `n` points, so the rounds
cannot keep growing. -/
theorem expandReach_componentOf_fixed (ship : Ship n m) (p : Fin n) :
    expandReach ship (componentOf ship p) = componentOf ship p := by
  unfold componentOf
  have key : (expandReach ship)^[n + 1] ({p} : Finset (Fin n)) =
      (expandReach ship)^[n] ({p} : Finset (Fin n)) := by
    by_contra hne
    have hstrict : ∀ k, k ≤ n →
        (expandReach ship)^[k] ({p} : Finset (Fin n)) ⊂
          (expandReach ship)^[k + 1] ({p} : Finset (Fin n)) := by
      intro k hk
      refine HasSubset.Subset.ssubset_of_ne (iterate_expandReach_succ ship _ k) ?_
      intro heq
      apply hne
      have hs := iterate_expandReach_stationary ship {p} k heq.symm
      have h1 := hs (n + 1 - k)
      have h2 := hs (n - k)
      rw [show k + (n + 1 - k) = n + 1 by omega] at h1
      rw [show k + (n - k) = n by omega] at h2
      rw [h1, h2]
    have hcard : ∀ k, k ≤ n + 1 →
        k + 1 ≤ ((expandReach ship)^[k] ({p} : Finset (Fin n))).card := by
      intro k
      induction k with
      | zero =>
          intro _
          simp
      | succ k ih =>
          intro hk
          have hlt := Finset.card_lt_card (hstrict k (by omega))
          have hgrow := ih (by omega)
          omega
    have hbig := hcard (n + 1) le_rfl
    have hsmall : ((expandReach ship)^[n + 1] ({p} : Finset (Fin n))).card ≤ n := by
      have huniv := Finset.card_le_univ ((expandReach ship)^[n + 1] ({p} : Finset (Fin n)))
      simpa using huniv
    omega
  exact (Function.iterate_succ_apply' (expandReach ship) n {p}).symm.trans key

/-- A flood-fill component started inside a set closed under expansion
stays inside that set. -/
theorem componentOf_subset_closed (ship : Ship n m) {q : Fin n} {sset : Finset (Fin n)}
    (hq : q ∈ sset) (hfix : expandReach ship sset = sset) :
    componentOf ship q ⊆ sset := by
  unfold componentOf
  have hall : ∀ k, (expandReach ship)^[k] ({q} : Finset (Fin n)) ⊆ sset := by
    intro k
    induction k with
    | zero => simpa using hq
    | succ k ih =>
        rw [Function.iterate_succ_apply']
        exact (expandReach_mono ship ih).trans (le_of_eq hfix)
  exact hall n

/-- Spring adjacency is symmetric: a spring connects its endpoints in
either order. -/
theorem adjacentPoints_symm (ship : Ship n m) {p q : Fin n}
    (h : adjacentPoints ship p q) : adjacentPoints ship q p := by
  obtain ⟨s, hb, hor⟩ := h
  exact ⟨s, hb, hor.symm⟩

/-- A neighbour of `p` is reached by one expansion round from `{p}`. -/
theorem mem_expandReach_of_adjacent (ship : Ship n m) {p q : Fin n}
    (h : adjacentPoints ship p q) : q ∈ expandReach ship {p} := by
  unfold expandReach
  exact Finset.mem_union_right _
    (Finset.mem_filter.mpr ⟨Finset.mem_univ q, p, Finset.mem_singleton_self p, h⟩)

/-- Component membership is symmetric. -/
theorem mem_componentOf_symm (ship : Ship n m) {p q : Fin n}
    (h : q ∈ componentOf ship p) : p ∈ componentOf ship q := by
  suffices hgen : ∀ k (x : Fin n),
      x ∈ (expandReach ship)^[k] ({p} : Finset (Fin n)) → p ∈ componentOf ship x by
    exact hgen n q h
  intro k
  induction k with
  | zero =>
      intro x hx
      have hx2 : x = p := Finset.mem_singleton.mp hx
      subst hx2
      exact mem_componentOf_self ship _
  | succ k ih =>
      intro x hx
      rw [Function.iterate_succ_apply'] at hx
      unfold expandReach at hx
      rcases Finset.mem_union.mp hx with hx | hx
      · exact ih x hx
      · obtain ⟨hu, r, hr, hadj⟩ := Finset.mem_filter.mp hx
        have hpr := ih r hr
        have hrx : r ∈ componentOf ship x := by
          have h1 : r ∈ expandReach ship {x} :=
            mem_expandReach_of_adjacent ship (adjacentPoints_symm ship hadj)
          have h2 : r ∈ (expandReach ship)^[1] ({x} : Finset (Fin n)) := by
            rw [Function.iterate_one]
            exact h1
          exact iterate_expandReach_le ship {x} x.pos h2
        exact componentOf_subset_closed ship hrx
          (expandReach_componentOf_fixed ship x) hpr

/-- Components through any of their members are the same set. -/
theorem componentOf_eq_of_mem (ship : Ship n m) {p q : Fin n}
    (h : q ∈ componentOf ship p) : componentOf ship q = componentOf ship p :=
  Finset.Subset.antisymm
    (componentOf_subset_closed ship h (expandReach_componentOf_fixed ship p))
    (componentOf_subset_closed ship (mem_componentOf_symm ship h)
      (expandReach_componentOf_fixed ship q))

/-- C7: after an update frame (in particular after one in which springs
broke), the recomputed flood-fill bookkeeping assigns every point to
exactly one connected component of the surviving spring graph. -/
theorem connectedComponents_unique_membership (surf : ℚ → ℚ) (forces : Fin n → Vec2f)
    (gp : GameParameters) (ship : Ship n m) (p : Fin n) :
    ∃! c, c ∈ connectedComponents (updateStep surf forces gp ship) ∧ p ∈ c := by
  refine ⟨componentOf (updateStep surf forces gp ship) p,
    ⟨Finset.mem_image_of_mem _ (Finset.mem_univ p),
      mem_componentOf_self (updateStep surf forces gp ship) p⟩, ?_⟩
  rintro c ⟨hc, hpc⟩
  obtain ⟨q, hq, rfl⟩ := Finset.mem_image.mp hc
  exact (componentOf_eq_of_mem (updateStep surf forces gp ship) hpc).symm

end FloatingSandbox
